import Mathlib

/-!
Shallow embedding of the trajectory planner in `source/virtualmachine.py`.

Python floats are modelled by real numbers (`ℝ`); `float('inf')` — which occurs
only as a possible value of `max_junction_speed` — is modelled by `Option ℝ`
with `none` standing for infinity (the value is only ever fed into `min`).
Each definition mirrors the corresponding Python function or loop body; the
three loops of `Machine.calculate_path_segments` are embedded as the three
functions `calculate_pass1`, `calculate_pass2`, `calculate_pass3`.
-/

/-- The kinematic constants read from the settings store
(`Machine.update_settings`). -/
structure Config where
  MIN_SPEED : ℝ
  ACCELERATION : ℝ
  JUNCTION_DEVIATION : ℝ

/-- One instruction record (a `GLine`): the planner only reads the F, X and Y
words of a record (`Machine.create_path_segments` lines 58-63); the Z and G
words drive layer detection, which mutates only `Machine.layers` and no
`PathSegment` field, so they are not needed for the planning pipeline. -/
structure GLine where
  f : Option ℝ
  x : Option ℝ
  y : Option ℝ

/-- `PathSegment.__init__`: all computed fields start at 0. -/
structure PathSegment where
  x : ℝ
  y : ℝ
  nominal_speed : ℝ
  entry_speed : ℝ
  max_entry_speed : ℝ
  max_reached_speed : ℝ
  distance : ℝ
  x_distance : ℝ
  y_distance : ℝ
  x_unit_vec : ℝ
  y_unit_vec : ℝ

/-- `PathSegment(x, y, nominal_speed, gline, machine)`: the constructor zeroes
every derived field. -/
def PathSegment.mk0 (x y nominal_speed : ℝ) : PathSegment :=
  ⟨x, y, nominal_speed, 0, 0, 0, 0, 0, 0, 0, 0⟩

/-- The running modal state of `Machine.create_path_segments`:
`nominal_speed`, `x`, `y`, all initialized to 0. -/
structure BuildState where
  nominal_speed : ℝ
  x : ℝ
  y : ℝ

/-- One iteration of the loop body of `Machine.create_path_segments`
(lines 58-74): update any present word, then append a `PathSegment`
capturing the current modal state. -/
noncomputable def stepBuild (st : BuildState) (g : GLine) : BuildState × PathSegment :=
  let nominal_speed := match g.f with
    | some v => v / 60
    | none => st.nominal_speed
  let x := match g.x with
    | some v => v
    | none => st.x
  let y := match g.y with
    | some v => v
    | none => st.y
  (⟨nominal_speed, x, y⟩, PathSegment.mk0 x y nominal_speed)

noncomputable def buildFrom (st : BuildState) : List GLine → List PathSegment
  | [] => []
  | g :: gs =>
      let p := stepBuild st g
      p.2 :: buildFrom p.1 gs

/-- `Machine.create_path_segments`: one `PathSegment` per `GLine`, modal state
starting at all zeroes. -/
noncomputable def create_path_segments (gs : List GLine) : List PathSegment :=
  buildFrom ⟨0, 0, 0⟩ gs

/-- Line 85: `seg.distance = math.sqrt(seg.x_distance ** 2 + seg.y_distance ** 2)`. -/
noncomputable def seg_distance (prev seg : PathSegment) : ℝ :=
  Real.sqrt ((seg.x - prev.x) ^ 2 + (seg.y - prev.y) ^ 2)

/-- Line 112: the junction cosine of a moving segment, computed from the
segment's own (freshly computed) unit vector and the predecessor's stored
unit-vector fields. -/
noncomputable def junction_cos_theta (prev seg : PathSegment) : ℝ :=
  -((seg.x - prev.x) / seg_distance prev seg) * prev.x_unit_vec -
    ((seg.y - prev.y) / seg_distance prev seg) * prev.y_unit_vec

/-- Lines 114-127: the maximum junction speed of a moving segment.
`none` models `float('inf')` (the collinear branch). -/
noncomputable def max_junction_speed (cfg : Config) (prev seg : PathSegment) : Option ℝ :=
  if junction_cos_theta prev seg > 0.999999 then
    some (cfg.MIN_SPEED ^ 2)
  else if junction_cos_theta prev seg < -0.999999 then
    none
  else
    let sin_theta_d2 := Real.sqrt (0.5 * (1.0 - junction_cos_theta prev seg))
    let prelim := Real.sqrt ((cfg.ACCELERATION * cfg.JUNCTION_DEVIATION * sin_theta_d2) /
      (1 - sin_theta_d2))
    some (max cfg.MIN_SPEED prelim)

/-- The two- or three-argument Python `min` applied to
`(nominal, prev_nominal, max_junction_speed)` at line 129; an infinite
junction speed (`none`) drops out of the minimum. -/
noncomputable def min_with_junction (a b : ℝ) : Option ℝ → ℝ
  | none => min a b
  | some v => min a (min b v)

/-- One iteration of the first loop of `Machine.calculate_path_segments`
(lines 78-134): geometry plus the pass-1 junction speed limit.  `prev` is the
already-updated previous segment, exactly as in the in-place Python loop. -/
noncomputable def pass1Seg (cfg : Config) (prev seg : PathSegment) : PathSegment :=
  let x_distance := seg.x - prev.x
  let y_distance := seg.y - prev.y
  let distance := seg_distance prev seg
  if distance ≠ 0 then
    let x_unit_vec := x_distance / distance
    let y_unit_vec := y_distance / distance
    let max_entry_speed :=
      min_with_junction seg.nominal_speed prev.nominal_speed (max_junction_speed cfg prev seg)
    { seg with
        x_distance := x_distance
        y_distance := y_distance
        distance := distance
        x_unit_vec := x_unit_vec
        y_unit_vec := y_unit_vec
        max_entry_speed := max_entry_speed
        entry_speed := max_entry_speed }
  else
    { seg with
        x_distance := x_distance
        y_distance := y_distance
        distance := distance
        max_entry_speed := 0
        entry_speed := 0 }

noncomputable def pass1Go (cfg : Config) (prev : PathSegment) :
    List PathSegment → List PathSegment
  | [] => []
  | seg :: rest =>
      let seg' := pass1Seg cfg prev seg
      seg' :: pass1Go cfg seg' rest

/-- First loop of `Machine.calculate_path_segments` (`for i in range(1, n)`):
the segment at index 0 is never visited. -/
noncomputable def calculate_pass1 (cfg : Config) : List PathSegment → List PathSegment
  | [] => []
  | first :: rest => first :: pass1Go cfg first rest

/-- One iteration of the forward pass (lines 142-143): `seg` is the
already-updated segment at index `i`, `next_seg` the one at `i+1`. -/
noncomputable def pass2Seg (cfg : Config) (seg next_seg : PathSegment) : PathSegment :=
  let max_exit_speed := seg.entry_speed + Real.sqrt (2 * cfg.ACCELERATION * seg.distance)
  { next_seg with entry_speed := min next_seg.max_entry_speed max_exit_speed }

noncomputable def pass2Go (cfg : Config) (seg : PathSegment) :
    List PathSegment → List PathSegment
  | [] => []
  | next_seg :: rest =>
      let next' := pass2Seg cfg seg next_seg
      next' :: pass2Go cfg next' rest

/-- Forward pass (lines 136-143, `for i in range(n-1)`): only the entry speed
of the segment at index `i+1` is written. -/
noncomputable def calculate_pass2 (cfg : Config) : List PathSegment → List PathSegment
  | [] => []
  | first :: rest => first :: pass2Go cfg first rest

/-- Line 147 and line 172: `PathSegment(0, 0, 0, None, self)`. -/
def virtual_segment : PathSegment := PathSegment.mk0 0 0 0

/-- One iteration of the reverse pass (lines 148-156). -/
noncomputable def pass3Seg (cfg : Config) (seg next_seg : PathSegment) : PathSegment :=
  let max_entry_speed :=
    next_seg.entry_speed + Real.sqrt (2 * cfg.ACCELERATION * seg.distance)
  if max_entry_speed < seg.entry_speed then
    { seg with max_entry_speed := max_entry_speed, entry_speed := max_entry_speed }
  else
    seg

/-- Reverse pass over the segments at indices `n-1 .. 1`; each segment sees
the already-updated successor, with an all-zero virtual segment after the
last real one. -/
noncomputable def pass3Aux (cfg : Config) : List PathSegment → List PathSegment
  | [] => []
  | seg :: rest =>
      let rest' := pass3Aux cfg rest
      let next_seg := match rest' with
        | [] => virtual_segment
        | n :: _ => n
      pass3Seg cfg seg next_seg :: rest'

/-- Reverse pass (`for i in range(n-1, 0, -1)`): index 0 is never visited. -/
noncomputable def calculate_pass3 (cfg : Config) : List PathSegment → List PathSegment
  | [] => []
  | first :: rest => first :: pass3Aux cfg rest

/-- `Machine.calculate_path_segments`: the three passes in sequence. -/
noncomputable def calculate_path_segments (cfg : Config) (segs : List PathSegment) :
    List PathSegment :=
  calculate_pass3 cfg (calculate_pass2 cfg (calculate_pass1 cfg segs))

/-- The path segments as they stand when `Machine.create_path` finishes the
speed-solving stage. -/
noncomputable def solved_segments (cfg : Config) (records : List GLine) : List PathSegment :=
  calculate_path_segments cfg (create_path_segments records)

example : create_path_segments [⟨none, none, none⟩] = [PathSegment.mk0 0 0 0] := rfl

example : calculate_path_segments ⟨1, 2, 3⟩ [PathSegment.mk0 0 0 0] = [PathSegment.mk0 0 0 0] :=
  rfl

/-- `AccelerationSegment.__init__` plus the back-reference: `path_seg` holds
the parent `PathSegment` (as it stands after the profiler wrote
`max_reached_speed`), which the samplers read through the back-pointer. -/
structure AccelerationSegment where
  path_seg : PathSegment
  x : ℝ
  y : ℝ
  acceleration : ℝ
  x_acceleration : ℝ
  y_acceleration : ℝ
  distance : ℝ
  duration : ℝ

/-- `Machine.vectorize`. -/
noncomputable def vectorize (path_seg : PathSegment) (value : ℝ) : ℝ × ℝ :=
  (path_seg.x_unit_vec * value, path_seg.y_unit_vec * value)

/-- Line 186: the speed reachable by accelerating then immediately
decelerating across the whole segment. -/
noncomputable def maximum_possible_speed (cfg : Config) (path_seg next_path_seg : PathSegment) :
    ℝ :=
  Real.sqrt (cfg.ACCELERATION * path_seg.distance +
    (path_seg.entry_speed ^ 2 + next_path_seg.entry_speed ^ 2) / 2)

/-- One iteration of the loop of `Machine.calculate_acceleration_segments`
(lines 175-222): the sub-segments appended for one `(path_seg, next_path_seg)`
pair, in the order they are appended to the flat list.  A zero-distance
segment is skipped (`continue`, line 179-180) and contributes nothing. -/
noncomputable def profileSegment (cfg : Config) (path_seg next_path_seg : PathSegment) :
    List AccelerationSegment :=
  if path_seg.distance = 0 then []
  else
    let maxp := maximum_possible_speed cfg path_seg next_path_seg
    let limiting_speed := min path_seg.nominal_speed maxp
    let parent := { path_seg with max_reached_speed := limiting_speed }
    let acc_duration := (limiting_speed - path_seg.entry_speed) / cfg.ACCELERATION
    let dcc_duration := (limiting_speed - next_path_seg.entry_speed) / cfg.ACCELERATION
    let acc_distance :=
      path_seg.entry_speed * acc_duration + 0.5 * cfg.ACCELERATION * acc_duration ^ 2
    -- source local name: d_acc_ratio
    let d_acc_frac := acc_distance / path_seg.distance - 1
    let acc_seg : AccelerationSegment :=
      { path_seg := parent
        x := path_seg.x + d_acc_frac * path_seg.x_distance
        y := path_seg.y + d_acc_frac * path_seg.y_distance
        acceleration := cfg.ACCELERATION
        x_acceleration := (vectorize path_seg cfg.ACCELERATION).1
        y_acceleration := (vectorize path_seg cfg.ACCELERATION).2
        distance := acc_distance
        duration := acc_duration }
    let dcc_distance :=
      next_path_seg.entry_speed * dcc_duration + 0.5 * cfg.ACCELERATION * dcc_duration ^ 2
    let dcc_seg : AccelerationSegment :=
      { path_seg := parent
        x := path_seg.x
        y := path_seg.y
        acceleration := -cfg.ACCELERATION
        x_acceleration := (vectorize path_seg (-cfg.ACCELERATION)).1
        y_acceleration := (vectorize path_seg (-cfg.ACCELERATION)).2
        distance := dcc_distance
        duration := dcc_duration }
    if maxp > path_seg.nominal_speed then
      let plt_distance := path_seg.distance - acc_distance - dcc_distance
      -- source local name: d_dcc_ratio
      let d_dcc_frac := dcc_distance / path_seg.distance
      let plt_seg : AccelerationSegment :=
        { path_seg := parent
          x := path_seg.x - path_seg.x_distance * d_dcc_frac
          y := path_seg.y - path_seg.y_distance * d_dcc_frac
          acceleration := 0
          x_acceleration := 0
          y_acceleration := 0
          distance := plt_distance
          duration := plt_distance / path_seg.nominal_speed }
      [acc_seg, plt_seg, dcc_seg]
    else
      [acc_seg, dcc_seg]

/-- `Machine.calculate_acceleration_segments`: iterate over consecutive pairs
of `self.path_segments + [PathSegment(0, 0, 0, None, self)]`. -/
noncomputable def calculate_acceleration_segments (cfg : Config) :
    List PathSegment → List AccelerationSegment
  | [] => []
  | [path_seg] => profileSegment cfg path_seg virtual_segment
  | path_seg :: next_path_seg :: rest =>
      profileSegment cfg path_seg next_path_seg ++
        calculate_acceleration_segments cfg (next_path_seg :: rest)

/-- `AccelerationSegment.get_accelerations`. -/
def AccelerationSegment.get_accelerations (a : AccelerationSegment) : ℝ × ℝ × ℝ :=
  (a.acceleration, a.x_acceleration, a.y_acceleration)

/-! ## Division-by-zero accounting

Lean's real division is total, so reachability of a Python
`ZeroDivisionError` is made explicit: for each stage, a companion function
lists the divisor of every division the Python code executes on that input,
in execution order.  A division by zero occurs exactly when `0` is a member
of the list. -/

/-- Line 59: `gline.get_word('F') / 60` runs only when the record has an F
word. -/
def gline_divisors (g : GLine) : List ℝ :=
  match g.f with
  | some _ => [60]
  | none => []

def create_divisors : List GLine → List ℝ
  | [] => []
  | g :: gs => gline_divisors g ++ create_divisors gs

/-- Divisors of one pass-1 iteration: the two unit-vector divisions by
`distance` (lines 89-90, only when `distance != 0`) and the division by
`1 - sin_theta_d2` (line 126, only in the middle junction regime). -/
noncomputable def pass1Seg_divisors (cfg : Config) (prev seg : PathSegment) : List ℝ :=
  let distance := seg_distance prev seg
  if distance ≠ 0 then
    [distance, distance] ++
      (if junction_cos_theta prev seg > 0.999999 then []
       else if junction_cos_theta prev seg < -0.999999 then []
       else [1 - Real.sqrt (0.5 * (1.0 - junction_cos_theta prev seg))])
  else []

noncomputable def pass1Go_divisors (cfg : Config) (prev : PathSegment) :
    List PathSegment → List ℝ
  | [] => []
  | seg :: rest =>
      pass1Seg_divisors cfg prev seg ++ pass1Go_divisors cfg (pass1Seg cfg prev seg) rest

noncomputable def calculate_pass1_divisors (cfg : Config) : List PathSegment → List ℝ
  | [] => []
  | first :: rest => pass1Go_divisors cfg first rest

/-- Divisors of one profiler iteration: the two duration divisions by
`ACCELERATION` (lines 192-193), the `d_acc_ratio` division by `distance`
(line 199) and, when a plateau is built, the plateau-duration division by
`nominal_speed` (line 214) and the `d_dcc_ratio` division by `distance`
(line 216). -/
noncomputable def profileSegment_divisors (cfg : Config) (path_seg next_path_seg : PathSegment) :
    List ℝ :=
  if path_seg.distance = 0 then []
  else
    [cfg.ACCELERATION, cfg.ACCELERATION, path_seg.distance] ++
      (if maximum_possible_speed cfg path_seg next_path_seg > path_seg.nominal_speed then
        [path_seg.nominal_speed, path_seg.distance]
      else [])

noncomputable def profiler_divisors (cfg : Config) : List PathSegment → List ℝ
  | [] => []
  | [path_seg] => profileSegment_divisors cfg path_seg virtual_segment
  | path_seg :: next_path_seg :: rest =>
      profileSegment_divisors cfg path_seg next_path_seg ++
        profiler_divisors cfg (next_path_seg :: rest)

/-- Every divisor used by the whole planning computation of
`Machine.create_path` (segment build, speed solving, acceleration profiling)
on the given input.  Pass 2 and pass 3 perform no division. -/
noncomputable def pipeline_divisors (cfg : Config) (records : List GLine) : List ℝ :=
  create_divisors records ++
    calculate_pass1_divisors cfg (create_path_segments records) ++
    profiler_divisors cfg (solved_segments cfg records)

/-! ## Time-domain samplers

`ValueFromTime.__init__` stores an iterator over the flat acceleration-segment
list, the current sub-segment and its start/end times, and the last queried
time.  Python exceptions are modelled by `Except`; because the Python objects
mutate their fields even on a call that raises, every `__getitem__` model
returns the object's post-call state alongside the result. -/

inductive SampleErr where
  /-- `ValueError` — non-monotonic time query. -/
  | nonMonotonic : SampleErr
  /-- `IndexError` — time beyond the last sub-segment. -/
  | endOfRange : SampleErr
deriving DecidableEq

structure SamplerState where
  remaining : List AccelerationSegment
  current_seg : AccelerationSegment
  current_seg_start_time : ℝ
  current_seg_end_time : ℝ
  current_time : ℝ

/-- `ValueFromTime.__init__` over a nonempty flat list. -/
def SamplerState.init (first : AccelerationSegment) (rest : List AccelerationSegment) :
    SamplerState :=
  ⟨rest, first, 0, first.duration, 0⟩

/-- The while loop at lines 342-349: advance as long as
`current_seg_end_time < time`; first component `false` models the
`StopIteration`-turned-`IndexError`, alongside the fields as mutated so far. -/
noncomputable def advanceSegs (time : ℝ) :
    AccelerationSegment → ℝ → ℝ → List AccelerationSegment →
      Bool × AccelerationSegment × ℝ × ℝ × List AccelerationSegment
  | cur, startT, endT, [] =>
      if endT < time then (false, cur, startT, endT, []) else (true, cur, startT, endT, [])
  | cur, startT, endT, nxt :: rest =>
      if endT < time then advanceSegs time nxt endT (endT + nxt.duration) rest
      else (true, cur, startT, endT, nxt :: rest)

/-- `ValueFromTime.__getitem__` (lines 336-353) up to the subclass-specific
`_return_value`: on success the final state is handed to the subclass. -/
noncomputable def cursorStep (s : SamplerState) (time : ℝ) : Except SampleErr SamplerState × SamplerState :=
  if time < s.current_time then
    (Except.error SampleErr.nonMonotonic, s)
  else
    match advanceSegs time s.current_seg s.current_seg_start_time s.current_seg_end_time
        s.remaining with
    | (false, cur, startT, endT, rem) =>
        (Except.error SampleErr.endOfRange, ⟨rem, cur, startT, endT, s.current_time⟩)
    | (true, cur, startT, endT, rem) =>
        let s' : SamplerState := ⟨rem, cur, startT, endT, time⟩
        (Except.ok s', s')

/-- The end time of the last sub-segment in the sampler's range. -/
def SamplerState.endTime (s : SamplerState) : ℝ :=
  s.current_seg_end_time + (s.remaining.map AccelerationSegment.duration).sum

/-- `AccelerationFromTime._return_value` (lines 361-362): the method body
evaluates `self.current_seg.get_accelerations()` but has no `return`
statement, so the call returns `None`. -/
def AccelerationFromTime.return_value (s : SamplerState) (time : ℝ) : Option (ℝ × ℝ × ℝ) :=
  none

/-- `AccelerationFromTime.__getitem__`: the inherited cursor step followed by
the overridden `_return_value`. -/
noncomputable def AccelerationFromTime.getitem (s : SamplerState) (time : ℝ) :
    Except SampleErr (Option (ℝ × ℝ × ℝ)) × SamplerState :=
  match cursorStep s time with
  | (Except.ok s', s₂) => (Except.ok (AccelerationFromTime.return_value s' time), s₂)
  | (Except.error e, s₂) => (Except.error e, s₂)

/-- `SpeedFromTime._return_value` (lines 367-384). -/
noncomputable def SpeedFromTime.return_value (s : SamplerState) (time : ℝ) : ℝ :=
  if s.current_seg.acceleration = 0 then
    s.current_seg.path_seg.max_reached_speed
  else
    let t_acc := time - s.current_seg_start_time
    let v_in :=
      if s.current_seg.acceleration > 0 then s.current_seg.path_seg.entry_speed
      else s.current_seg.path_seg.max_reached_speed
    v_in + s.current_seg.acceleration * t_acc

/-- `SpeedFromTime.__getitem__`. -/
noncomputable def SpeedFromTime.getitem (s : SamplerState) (time : ℝ) :
    Except SampleErr ℝ × SamplerState :=
  match cursorStep s time with
  | (Except.ok s', s₂) => (Except.ok (SpeedFromTime.return_value s' time), s₂)
  | (Except.error e, s₂) => (Except.error e, s₂)

inductive Axis where
  | x : Axis
  | y : Axis
deriving DecidableEq

/-- The state of `PositionFromTime`: additionally carries the accumulated
coordinate and the selected axis. -/
structure PosState where
  coord_name : Axis
  coord_value : ℝ
  remaining : List AccelerationSegment
  current_seg : AccelerationSegment
  current_seg_start_time : ℝ
  current_seg_end_time : ℝ
  current_time : ℝ

/-- `PositionFromTime._get_speed` (lines 478-500) for the current sub-segment:
the scalar speed at `time`, vectorized onto the selected axis. -/
noncomputable def PositionFromTime.get_speed (coord_name : Axis)
    (cur : AccelerationSegment) (startT : ℝ) (time : ℝ) : ℝ :=
  let speed :=
    if cur.acceleration = 0 then cur.path_seg.max_reached_speed
    else
      let t_acc := time - startT
      let v_in :=
        if cur.acceleration > 0 then cur.path_seg.entry_speed
        else cur.path_seg.max_reached_speed
      v_in + cur.acceleration * t_acc
  match coord_name with
  | Axis.x => (vectorize cur.path_seg speed).1
  | Axis.y => (vectorize cur.path_seg speed).2

/-- The per-axis acceleration selected at lines 450-453 / 461-464. -/
def axisAcc (coord_name : Axis) (cur : AccelerationSegment) : ℝ :=
  match coord_name with
  | Axis.x => cur.x_acceleration
  | Axis.y => cur.y_acceleration

/-- The `while True` loop of `PositionFromTime.__getitem__` (lines 447-476):
either the query time falls inside the current sub-segment (strictly before
its end time) and a coordinate is returned, or displacement is integrated to
the sub-segment boundary and the cursor advances; exhausting the iterator
raises `IndexError` with the partially-advanced state. -/
noncomputable def posLoop (coord_name : Axis) (time : ℝ) :
    ℝ → AccelerationSegment → ℝ → ℝ → ℝ → List AccelerationSegment →
      Except SampleErr ℝ × PosState
  | coordVal, cur, startT, endT, curTime, [] =>
      if time < endT then
        let delta_t := time - curTime
        let dist := 0.5 * axisAcc coord_name cur * delta_t ^ 2 +
          PositionFromTime.get_speed coord_name cur startT curTime * delta_t
        (Except.ok (coordVal + dist), ⟨coord_name, coordVal + dist, [], cur, startT, endT, time⟩)
      else
        let delta_t := endT - curTime
        let dist := 0.5 * axisAcc coord_name cur * delta_t ^ 2 +
          PositionFromTime.get_speed coord_name cur startT curTime * delta_t
        (Except.error SampleErr.endOfRange,
          ⟨coord_name, coordVal + dist, [], cur, startT, endT, curTime + delta_t⟩)
  | coordVal, cur, startT, endT, curTime, nxt :: rest =>
      if time < endT then
        let delta_t := time - curTime
        let dist := 0.5 * axisAcc coord_name cur * delta_t ^ 2 +
          PositionFromTime.get_speed coord_name cur startT curTime * delta_t
        (Except.ok (coordVal + dist),
          ⟨coord_name, coordVal + dist, nxt :: rest, cur, startT, endT, time⟩)
      else
        let delta_t := endT - curTime
        let dist := 0.5 * axisAcc coord_name cur * delta_t ^ 2 +
          PositionFromTime.get_speed coord_name cur startT curTime * delta_t
        posLoop coord_name time (coordVal + dist) nxt endT (endT + nxt.duration)
          (curTime + delta_t) rest

/-- `PositionFromTime.__getitem__` (lines 443-476). -/
noncomputable def PositionFromTime.getitem (p : PosState) (time : ℝ) :
    Except SampleErr ℝ × PosState :=
  if time < p.current_time then
    (Except.error SampleErr.nonMonotonic, p)
  else
    posLoop p.coord_name time p.coord_value p.current_seg p.current_seg_start_time
      p.current_seg_end_time p.current_time p.remaining

/-- The end time of the last sub-segment in the position sampler's range. -/
def PosState.endTime (p : PosState) : ℝ :=
  p.current_seg_end_time + (p.remaining.map AccelerationSegment.duration).sum

/-! ## Basic characterization lemmas -/

lemma pass1Seg_of_ne (cfg : Config) (prev seg : PathSegment)
    (hd : seg_distance prev seg ≠ 0) :
    pass1Seg cfg prev seg =
      { seg with
          x_distance := seg.x - prev.x
          y_distance := seg.y - prev.y
          distance := seg_distance prev seg
          x_unit_vec := (seg.x - prev.x) / seg_distance prev seg
          y_unit_vec := (seg.y - prev.y) / seg_distance prev seg
          max_entry_speed := min_with_junction seg.nominal_speed prev.nominal_speed
            (max_junction_speed cfg prev seg)
          entry_speed := min_with_junction seg.nominal_speed prev.nominal_speed
            (max_junction_speed cfg prev seg) } := by
  simp only [pass1Seg]
  rw [if_pos hd]

lemma pass1Seg_of_eq (cfg : Config) (prev seg : PathSegment)
    (hd : seg_distance prev seg = 0) :
    pass1Seg cfg prev seg =
      { seg with
          x_distance := seg.x - prev.x
          y_distance := seg.y - prev.y
          distance := seg_distance prev seg
          max_entry_speed := 0
          entry_speed := 0 } := by
  simp only [pass1Seg]
  rw [if_neg (by simpa using hd)]

lemma pass1Seg_nominal (cfg : Config) (prev seg : PathSegment) :
    (pass1Seg cfg prev seg).nominal_speed = seg.nominal_speed := by
  simp only [pass1Seg]
  split <;> rfl

lemma pass1Seg_distance_nonneg (cfg : Config) (prev seg : PathSegment) :
    0 ≤ (pass1Seg cfg prev seg).distance := by
  simp only [pass1Seg]
  split <;> exact Real.sqrt_nonneg _

lemma pass2Seg_entry (cfg : Config) (seg next_seg : PathSegment) :
    (pass2Seg cfg seg next_seg).entry_speed =
      min next_seg.max_entry_speed
        (seg.entry_speed + Real.sqrt (2 * cfg.ACCELERATION * seg.distance)) := rfl

lemma pass2Seg_fields (cfg : Config) (seg next_seg : PathSegment) :
    (pass2Seg cfg seg next_seg).distance = next_seg.distance ∧
    (pass2Seg cfg seg next_seg).max_entry_speed = next_seg.max_entry_speed ∧
    (pass2Seg cfg seg next_seg).nominal_speed = next_seg.nominal_speed :=
  ⟨rfl, rfl, rfl⟩

lemma pass3Seg_eq_ite (cfg : Config) (seg next_seg : PathSegment) :
    pass3Seg cfg seg next_seg =
      if next_seg.entry_speed + Real.sqrt (2 * cfg.ACCELERATION * seg.distance) <
          seg.entry_speed then
        { seg with
            max_entry_speed :=
              next_seg.entry_speed + Real.sqrt (2 * cfg.ACCELERATION * seg.distance)
            entry_speed :=
              next_seg.entry_speed + Real.sqrt (2 * cfg.ACCELERATION * seg.distance) }
      else seg := rfl

lemma buildFrom_length : ∀ (gs : List GLine) (st : BuildState),
    (buildFrom st gs).length = gs.length
  | [], _ => rfl
  | _ :: gs, st => by simp [buildFrom, buildFrom_length gs]

lemma pass2Go_get_zero (cfg : Config) :
    ∀ (l : List PathSegment) (seg n0 : PathSegment), l[0]? = some n0 →
      (pass2Go cfg seg l)[0]? = some (pass2Seg cfg seg n0)
  | [], _, _ => by simp
  | a :: rest, seg, n0 => by
      intro h
      simp only [List.getElem?_cons_zero, Option.some.injEq] at h
      subst h
      simp [pass2Go]

lemma pass2Go_get_succ (cfg : Config) :
    ∀ (j : ℕ) (l : List PathSegment) (seg pj nj : PathSegment),
      (pass2Go cfg seg l)[j]? = some pj → l[j + 1]? = some nj →
      (pass2Go cfg seg l)[j + 1]? = some (pass2Seg cfg pj nj)
  | _, [], _, _, _ => by simp [pass2Go]
  | 0, n0 :: rest, seg, pj, nj => by
      intro h0 h1
      simp only [pass2Go, List.getElem?_cons_zero, Option.some.injEq] at h0
      simp only [List.getElem?_cons_succ] at h1
      subst h0
      simpa [pass2Go] using pass2Go_get_zero cfg rest (pass2Seg cfg seg n0) nj h1
  | j + 1, n0 :: rest, seg, pj, nj => by
      intro h0 h1
      simp only [pass2Go, List.getElem?_cons_succ] at h0 h1 ⊢
      exact pass2Go_get_succ cfg j rest (pass2Seg cfg seg n0) pj nj h0 h1

lemma pass3Aux_get (cfg : Config) :
    ∀ (l : List PathSegment) (j : ℕ) (sj : PathSegment), l[j]? = some sj →
      (pass3Aux cfg l)[j]? =
        some (pass3Seg cfg sj (((pass3Aux cfg l)[j + 1]?).getD virtual_segment))
  | [], _, _ => by simp
  | s0 :: rest, 0, sj => by
      intro h
      simp only [List.getElem?_cons_zero, Option.some.injEq] at h
      subst h
      simp only [pass3Aux, List.getElem?_cons_zero, List.getElem?_cons_succ,
        Option.some.injEq]
      cases hr : pass3Aux cfg rest <;> simp [hr]
  | s0 :: rest, j + 1, sj => by
      intro h
      simp only [List.getElem?_cons_succ] at h
      simp only [pass3Aux, List.getElem?_cons_succ]
      exact pass3Aux_get cfg rest j sj h

/-! ## C1 / C2: the forward and backward passes -/

noncomputable def cfgEx : Config := ⟨1, 2, 1⟩

noncomputable def segC1A : PathSegment :=
  { PathSegment.mk0 0 0 10 with entry_speed := 2, distance := 1 }

noncomputable def segC1B : PathSegment :=
  { PathSegment.mk0 3 0 10 with max_entry_speed := 10 }

/-- C1 (counterexample): the forward pass does not use the claimed achievable
exit speed `sqrt(entry_speed² + 2·ACCELERATION·distance)`.  With entry speed 2,
distance 1, `ACCELERATION = 2` and a next-segment geometric limit of 10, the
code (line 142) sets the next entry speed to `2 + sqrt(2·2·1) = 4`, while the
claimed formula gives `min(10, sqrt(2² + 2·2·1)) = sqrt 8 < 3`. -/
theorem C1_counterexample :
    ((calculate_pass2 cfgEx [segC1A, segC1B])[1]?).map PathSegment.entry_speed = some 4 ∧
    ((calculate_pass2 cfgEx [segC1A, segC1B])[1]?).map PathSegment.entry_speed ≠
      some (min segC1B.max_entry_speed
        (Real.sqrt (segC1A.entry_speed ^ 2 + 2 * cfgEx.ACCELERATION * segC1A.distance))) := by
  have hA : cfgEx.ACCELERATION = 2 := rfl
  have hdist : segC1A.distance = 1 := rfl
  have hent : segC1A.entry_speed = 2 := rfl
  have hmax : segC1B.max_entry_speed = 10 := rfl
  have hout : (calculate_pass2 cfgEx [segC1A, segC1B])[1]? =
      some (pass2Seg cfgEx segC1A segC1B) := by
    simp [calculate_pass2, pass2Go]
  have hsq : Real.sqrt (2 * cfgEx.ACCELERATION * segC1A.distance) = 2 := by
    rw [hA, hdist, show (2 : ℝ) * 2 * 1 = 2 ^ 2 by norm_num, Real.sqrt_sq (by norm_num)]
  have hentry : (pass2Seg cfgEx segC1A segC1B).entry_speed = 4 := by
    rw [pass2Seg_entry, hsq, hent, hmax, show (2 : ℝ) + 2 = 4 by norm_num,
      min_eq_right (by norm_num : (4 : ℝ) ≤ 10)]
  have hs8 : Real.sqrt (segC1A.entry_speed ^ 2 + 2 * cfgEx.ACCELERATION * segC1A.distance) <
      3 := by
    rw [hent, hA, hdist, Real.sqrt_lt' (by norm_num)]
    norm_num
  constructor
  · rw [hout, Option.map_some', hentry]
  · rw [hout, Option.map_some', hentry]
    simp only [ne_eq, Option.some.injEq]
    intro hcontra
    have h4 : (4 : ℝ) ≤
        Real.sqrt (segC1A.entry_speed ^ 2 + 2 * cfgEx.ACCELERATION * segC1A.distance) :=
      hcontra.le.trans (min_le_right _ _)
    linarith

/-- C1 (amended): in the forward pass, the next segment's entry speed is set to
`min(next.max_entry_speed, entry_speed + sqrt(2·ACCELERATION·distance))` —
the achievable exit speed as the code computes it, `entry_speed + sqrt(2·A·d)`
rather than the claimed `sqrt(entry_speed² + 2·A·d)` — where `entry_speed` and
`distance` are those of the already-updated segment at index `i`; in
particular it is never raised above the segment's geometric
`max_entry_speed`. -/
theorem C1_forward_pass_amended (cfg : Config) (segs : List PathSegment) (i : ℕ)
    (si1 oi : PathSegment)
    (h1 : segs[i + 1]? = some si1)
    (h2 : (calculate_pass2 cfg segs)[i]? = some oi) :
    (calculate_pass2 cfg segs)[i + 1]? = some (pass2Seg cfg oi si1) ∧
    (pass2Seg cfg oi si1).entry_speed =
      min si1.max_entry_speed
        (oi.entry_speed + Real.sqrt (2 * cfg.ACCELERATION * oi.distance)) ∧
    (pass2Seg cfg oi si1).entry_speed ≤ si1.max_entry_speed := by
  cases segs with
  | nil => simp at h1
  | cons s0 rest =>
    refine ⟨?_, rfl, min_le_left _ _⟩
    cases i with
    | zero =>
        simp only [calculate_pass2, List.getElem?_cons_zero, Option.some.injEq] at h2
        simp only [List.getElem?_cons_succ] at h1
        simp only [calculate_pass2, List.getElem?_cons_succ]
        rw [h2] at *
        exact pass2Go_get_zero cfg rest oi si1 h1
    | succ k =>
        simp only [calculate_pass2, List.getElem?_cons_succ] at h1 h2 ⊢
        exact pass2Go_get_succ cfg k rest s0 oi si1 h2 h1

theorem C1_forward_pass_amended_witness :
    (calculate_pass2 cfgEx [segC1A, segC1B])[0 + 1]? = some (pass2Seg cfgEx segC1A segC1B) ∧
    (pass2Seg cfgEx segC1A segC1B).entry_speed =
      min segC1B.max_entry_speed
        (segC1A.entry_speed + Real.sqrt (2 * cfgEx.ACCELERATION * segC1A.distance)) ∧
    (pass2Seg cfgEx segC1A segC1B).entry_speed ≤ segC1B.max_entry_speed :=
  C1_forward_pass_amended cfgEx [segC1A, segC1B] 0 segC1B segC1A (by simp)
    (by simp [calculate_pass2])

noncomputable def segC2A : PathSegment := PathSegment.mk0 0 0 0

noncomputable def segC2B : PathSegment :=
  { PathSegment.mk0 1 0 10 with entry_speed := 3.5, distance := 1 }

noncomputable def segC2C : PathSegment :=
  { PathSegment.mk0 3 0 10 with entry_speed := 2, distance := 2 }

/-- C2 (counterexample): the backward pass does not clamp to the claimed
`sqrt(next_entry² + 2·ACCELERATION·distance)`.  With `ACCELERATION = 2`,
segment 1 has entry speed 3.5 and distance 1, and its (finalized) successor
has entry speed 2.  The claimed feasible entry `sqrt(2² + 2·2·1) = sqrt 8 < 3.5`
would force a clamp, but the code (line 151) computes `2 + sqrt(2·2·1) = 4 ≥ 3.5`
and leaves the entry speed at 3.5. -/
theorem C2_counterexample :
    ((calculate_pass3 cfgEx [segC2A, segC2B, segC2C])[1]?).map PathSegment.entry_speed =
      some 3.5 ∧
    ((calculate_pass3 cfgEx [segC2A, segC2B, segC2C])[2]?).map PathSegment.entry_speed =
      some 2 ∧
    Real.sqrt ((2 : ℝ) ^ 2 + 2 * cfgEx.ACCELERATION * segC2B.distance) < 3.5 ∧
    (3.5 : ℝ) ≠ Real.sqrt ((2 : ℝ) ^ 2 + 2 * cfgEx.ACCELERATION * segC2B.distance) := by
  have hA : cfgEx.ACCELERATION = 2 := rfl
  have hBdist : segC2B.distance = 1 := rfl
  have hCdist : segC2C.distance = 2 := rfl
  have hC : pass3Seg cfgEx segC2C virtual_segment = segC2C := by
    rw [pass3Seg_eq_ite, if_neg]
    show ¬ (virtual_segment.entry_speed +
      Real.sqrt (2 * cfgEx.ACCELERATION * segC2C.distance) < segC2C.entry_speed)
    rw [hA, hCdist, show virtual_segment.entry_speed = 0 from rfl,
      show segC2C.entry_speed = 2 from rfl, zero_add,
      show (2 : ℝ) * 2 * 2 = 8 by norm_num]
    exact not_lt.mpr ((Real.le_sqrt' (by norm_num)).mpr (by norm_num))
  have hB : pass3Seg cfgEx segC2B segC2C = segC2B := by
    rw [pass3Seg_eq_ite, if_neg]
    show ¬ (segC2C.entry_speed +
      Real.sqrt (2 * cfgEx.ACCELERATION * segC2B.distance) < segC2B.entry_speed)
    rw [hA, hBdist, show segC2C.entry_speed = 2 from rfl,
      show segC2B.entry_speed = 3.5 from rfl,
      show (2 : ℝ) * 2 * 1 = 2 ^ 2 by norm_num, Real.sqrt_sq (by norm_num)]
    norm_num
  have hout : calculate_pass3 cfgEx [segC2A, segC2B, segC2C] = [segC2A, segC2B, segC2C] := by
    simp only [calculate_pass3, pass3Aux]
    rw [hC, hB]
  have hs8 : Real.sqrt ((2 : ℝ) ^ 2 + 2 * cfgEx.ACCELERATION * segC2B.distance) < 3.5 := by
    rw [hA, hBdist, Real.sqrt_lt' (by norm_num)]
    norm_num
  refine ⟨?_, ?_, hs8, (ne_of_lt hs8).symm⟩
  · rw [hout]
    rfl
  · rw [hout]
    rfl

/-- C2 (amended): in the backward pass (indices n-1 down to 1, with the
all-zero virtual terminal segment), each segment is updated by `pass3Seg`
against its already-finalized successor: the maximum feasible entry speed is
computed as `next_entry + sqrt(2·ACCELERATION·distance)` — not the claimed
`sqrt(next_entry² + 2·ACCELERATION·distance)` — and entry and max-entry speed
are clamped down to it exactly when the current entry speed exceeds it,
segments that do not exceed it being left unchanged. -/
theorem C2_backward_pass_amended (cfg : Config) (segs : List PathSegment) (i : ℕ)
    (si : PathSegment) (hi : 1 ≤ i) (h : segs[i]? = some si) :
    (calculate_pass3 cfg segs)[i]? =
      some (pass3Seg cfg si (((calculate_pass3 cfg segs)[i + 1]?).getD virtual_segment)) ∧
    ∀ nxt : PathSegment,
      pass3Seg cfg si nxt =
        if nxt.entry_speed + Real.sqrt (2 * cfg.ACCELERATION * si.distance) <
            si.entry_speed then
          { si with
              max_entry_speed :=
                nxt.entry_speed + Real.sqrt (2 * cfg.ACCELERATION * si.distance)
              entry_speed :=
                nxt.entry_speed + Real.sqrt (2 * cfg.ACCELERATION * si.distance) }
        else si := by
  cases segs with
  | nil => simp at h
  | cons s0 rest =>
    obtain ⟨k, rfl⟩ : ∃ k, i = k + 1 := ⟨i - 1, by omega⟩
    refine ⟨?_, fun nxt => rfl⟩
    simp only [calculate_pass3, List.getElem?_cons_succ] at h ⊢
    exact pass3Aux_get cfg rest k si h

theorem C2_backward_pass_amended_witness :
    ((calculate_pass3 cfgEx [segC2A, segC2B, segC2C])[1]? =
      some (pass3Seg cfgEx segC2B
        (((calculate_pass3 cfgEx [segC2A, segC2B, segC2C])[1 + 1]?).getD virtual_segment))) ∧
    ∀ nxt : PathSegment,
      pass3Seg cfgEx segC2B nxt =
        if nxt.entry_speed + Real.sqrt (2 * cfgEx.ACCELERATION * segC2B.distance) <
            segC2B.entry_speed then
          { segC2B with
              max_entry_speed :=
                nxt.entry_speed + Real.sqrt (2 * cfgEx.ACCELERATION * segC2B.distance)
              entry_speed :=
                nxt.entry_speed + Real.sqrt (2 * cfgEx.ACCELERATION * segC2B.distance) }
        else segC2B :=
  C2_backward_pass_amended cfgEx [segC2A, segC2B, segC2C] 1 segC2B (by norm_num) (by simp)

/-! ## C8: full-reversal junction -/

noncomputable def prevC8 : PathSegment := { PathSegment.mk0 1 0 5 with x_unit_vec := 1 }

noncomputable def segC8 : PathSegment := PathSegment.mk0 0 0 5

/-- C8: in Pass 1, a moving segment whose junction cosine exceeds 0.999999
gets `max_junction_speed = MIN_SPEED ** 2` (the literal squared constant,
line 116), so entry and max-entry speed become
`min(nominal, prev_nominal, MIN_SPEED²)`; when both nominal speeds exceed
`MIN_SPEED²`, the entry speed equals `MIN_SPEED²` exactly. -/
theorem C8_full_reversal_junction (cfg : Config) (prev seg : PathSegment)
    (hd : seg_distance prev seg ≠ 0)
    (hc : junction_cos_theta prev seg > 0.999999) :
    (pass1Seg cfg prev seg).max_entry_speed =
      min seg.nominal_speed (min prev.nominal_speed (cfg.MIN_SPEED ^ 2)) ∧
    (pass1Seg cfg prev seg).entry_speed =
      min seg.nominal_speed (min prev.nominal_speed (cfg.MIN_SPEED ^ 2)) ∧
    (cfg.MIN_SPEED ^ 2 < seg.nominal_speed → cfg.MIN_SPEED ^ 2 < prev.nominal_speed →
      (pass1Seg cfg prev seg).entry_speed = cfg.MIN_SPEED ^ 2) := by
  have hj : max_junction_speed cfg prev seg = some (cfg.MIN_SPEED ^ 2) := by
    unfold max_junction_speed
    rw [if_pos hc]
  have hmax : (pass1Seg cfg prev seg).max_entry_speed =
      min seg.nominal_speed (min prev.nominal_speed (cfg.MIN_SPEED ^ 2)) := by
    rw [pass1Seg_of_ne cfg prev seg hd]
    show min_with_junction seg.nominal_speed prev.nominal_speed
      (max_junction_speed cfg prev seg) = _
    rw [hj, min_with_junction]
  have hent : (pass1Seg cfg prev seg).entry_speed =
      min seg.nominal_speed (min prev.nominal_speed (cfg.MIN_SPEED ^ 2)) := by
    rw [pass1Seg_of_ne cfg prev seg hd]
    show min_with_junction seg.nominal_speed prev.nominal_speed
      (max_junction_speed cfg prev seg) = _
    rw [hj, min_with_junction]
  refine ⟨hmax, hent, fun h1 h2 => ?_⟩
  rw [hent, min_eq_right h2.le, min_eq_right h1.le]

theorem C8_full_reversal_junction_witness :
    ((pass1Seg cfgEx prevC8 segC8).max_entry_speed =
      min segC8.nominal_speed (min prevC8.nominal_speed (cfgEx.MIN_SPEED ^ 2)) ∧
    (pass1Seg cfgEx prevC8 segC8).entry_speed =
      min segC8.nominal_speed (min prevC8.nominal_speed (cfgEx.MIN_SPEED ^ 2)) ∧
    (cfgEx.MIN_SPEED ^ 2 < segC8.nominal_speed → cfgEx.MIN_SPEED ^ 2 < prevC8.nominal_speed →
      (pass1Seg cfgEx prevC8 segC8).entry_speed = cfgEx.MIN_SPEED ^ 2)) ∧
    cfgEx.MIN_SPEED ^ 2 < segC8.nominal_speed ∧
    cfgEx.MIN_SPEED ^ 2 < prevC8.nominal_speed := by
  have hd : seg_distance prevC8 segC8 = 1 := by
    unfold seg_distance
    rw [show (segC8.x - prevC8.x) ^ 2 + (segC8.y - prevC8.y) ^ 2 = 1 by
      show ((0:ℝ) - 1) ^ 2 + ((0:ℝ) - 0) ^ 2 = 1
      norm_num]
    exact Real.sqrt_one
  have hc : junction_cos_theta prevC8 segC8 = 1 := by
    unfold junction_cos_theta
    rw [hd]
    show -(((0:ℝ) - 1) / 1) * 1 - (((0:ℝ) - 0) / 1) * 0 = 1
    norm_num
  refine ⟨C8_full_reversal_junction cfgEx prevC8 segC8 (by rw [hd]; norm_num)
    (by rw [hc]; norm_num), ?_, ?_⟩
  · show (1:ℝ) ^ 2 < 5
    norm_num
  · show (1:ℝ) ^ 2 < 5
    norm_num

/-! ## C9: builder totality and zero-distance records -/

/-- C9: the Path Segment Builder accepts every record — exactly one
`PathSegment` per record; a record producing no positional change yields a
zero-distance segment whose entry and max-entry speed are forced to 0 in
Pass 1, and a zero-distance segment contributes zero `AccelerationSegment`s
in the profiler. -/
theorem C9_builder_total (cfg : Config) :
    (∀ records : List GLine, (create_path_segments records).length = records.length) ∧
    (∀ prev seg : PathSegment, seg.x = prev.x → seg.y = prev.y →
      (pass1Seg cfg prev seg).distance = 0 ∧
      (pass1Seg cfg prev seg).entry_speed = 0 ∧
      (pass1Seg cfg prev seg).max_entry_speed = 0) ∧
    (∀ path_seg next_path_seg : PathSegment, path_seg.distance = 0 →
      profileSegment cfg path_seg next_path_seg = []) := by
  refine ⟨fun records => buildFrom_length records _, ?_, ?_⟩
  · intro prev seg hx hy
    have hd : seg_distance prev seg = 0 := by
      unfold seg_distance
      rw [hx, hy]
      simp
    rw [pass1Seg_of_eq cfg prev seg hd]
    exact ⟨hd, rfl, rfl⟩
  · intro p n h
    unfold profileSegment
    rw [if_pos h]

theorem C9_builder_total_witness :
    (create_path_segments [(⟨none, none, none⟩ : GLine)]).length = 1 ∧
    (pass1Seg cfgEx virtual_segment virtual_segment).entry_speed = 0 ∧
    profileSegment cfgEx virtual_segment virtual_segment = [] :=
  ⟨by simpa using (C9_builder_total cfgEx).1 [⟨none, none, none⟩],
   ((C9_builder_total cfgEx).2.1 virtual_segment virtual_segment rfl rfl).2.1,
   (C9_builder_total cfgEx).2.2 virtual_segment virtual_segment rfl⟩

/-! ## C4: trapezoidal profile structure -/

noncomputable def segC4 : PathSegment := { PathSegment.mk0 0 0 10 with distance := 1 }

/-- C4: a `PathSegment` with positive distance yields exactly 2 or exactly 3
`AccelerationSegment`s, in the order accelerate → [cruise] → decelerate, with
a cruise sub-segment present iff `maximum_possible_speed` exceeds the nominal
speed, and the sub-segment distances sum exactly to the parent's distance
(in real arithmetic, assuming a positive acceleration constant). -/
theorem C4_profile_structure (cfg : Config) (path_seg next_path_seg : PathSegment)
    (hd : 0 < path_seg.distance) (hA : 0 < cfg.ACCELERATION) :
    ∃ acc_seg dcc_seg : AccelerationSegment,
      acc_seg.acceleration = cfg.ACCELERATION ∧
      dcc_seg.acceleration = -cfg.ACCELERATION ∧
      ((maximum_possible_speed cfg path_seg next_path_seg > path_seg.nominal_speed ∧
          ∃ plt_seg : AccelerationSegment, plt_seg.acceleration = 0 ∧
            profileSegment cfg path_seg next_path_seg = [acc_seg, plt_seg, dcc_seg]) ∨
        (¬ maximum_possible_speed cfg path_seg next_path_seg > path_seg.nominal_speed ∧
          profileSegment cfg path_seg next_path_seg = [acc_seg, dcc_seg])) ∧
      ((profileSegment cfg path_seg next_path_seg).map AccelerationSegment.distance).sum =
        path_seg.distance := by
  have hA' : cfg.ACCELERATION ≠ 0 := hA.ne'
  simp only [profileSegment]
  rw [if_neg hd.ne']
  set m := maximum_possible_speed cfg path_seg next_path_seg with hm
  by_cases hp : m > path_seg.nominal_speed
  · rw [if_pos hp]
    refine ⟨_, _, rfl, rfl, Or.inl ⟨hp, _, rfl, rfl⟩, ?_⟩
    simp only [List.map_cons, List.map_nil, List.sum_cons, List.sum_nil]
    ring
  · rw [if_neg hp]
    refine ⟨_, _, rfl, rfl, Or.inr ⟨hp, rfl⟩, ?_⟩
    simp only [List.map_cons, List.map_nil, List.sum_cons, List.sum_nil]
    have hmin : min path_seg.nominal_speed m = m := min_eq_right (not_lt.mp hp)
    rw [hmin]
    have hsq : m ^ 2 = cfg.ACCELERATION * path_seg.distance +
        (path_seg.entry_speed ^ 2 + next_path_seg.entry_speed ^ 2) / 2 := by
      rw [hm]
      exact Real.sq_sqrt (by positivity)
    have key : ∀ v : ℝ, v * ((m - v) / cfg.ACCELERATION) +
        0.5 * cfg.ACCELERATION * ((m - v) / cfg.ACCELERATION) ^ 2 =
        (m ^ 2 - v ^ 2) / (2 * cfg.ACCELERATION) := by
      intro v
      field_simp
      ring
    rw [key, key, hsq]
    field_simp
    ring

theorem C4_profile_structure_witness :
    ∃ acc_seg dcc_seg : AccelerationSegment,
      acc_seg.acceleration = cfgEx.ACCELERATION ∧
      dcc_seg.acceleration = -cfgEx.ACCELERATION ∧
      ((maximum_possible_speed cfgEx segC4 virtual_segment > segC4.nominal_speed ∧
          ∃ plt_seg : AccelerationSegment, plt_seg.acceleration = 0 ∧
            profileSegment cfgEx segC4 virtual_segment = [acc_seg, plt_seg, dcc_seg]) ∨
        (¬ maximum_possible_speed cfgEx segC4 virtual_segment > segC4.nominal_speed ∧
          profileSegment cfgEx segC4 virtual_segment = [acc_seg, dcc_seg])) ∧
      ((profileSegment cfgEx segC4 virtual_segment).map AccelerationSegment.distance).sum =
        segC4.distance :=
  C4_profile_structure cfgEx segC4 virtual_segment
    (by show (0 : ℝ) < 1; norm_num) (by show (0 : ℝ) < 2; norm_num)

/-! ## C7: the acceleration sampler returns nothing -/

noncomputable def accExSeg : AccelerationSegment :=
  { path_seg := virtual_segment
    x := 0
    y := 0
    acceleration := 2
    x_acceleration := 2
    y_acceleration := 0
    distance := 1
    duration := 1 }

/-- C7: contrary to the claim, `AccelerationFromTime._return_value` returns
`None` for every query — its body evaluates
`self.current_seg.get_accelerations()` but lacks a `return` statement
(line 362) — even though the active sub-segment's acceleration triple is
available; shown here on an in-range query (t = 0) of a sampler whose current
sub-segment carries accelerations (2, 2, 0). -/
theorem C7_acceleration_sampler_returns_none :
    (∀ (s : SamplerState) (t : ℝ), AccelerationFromTime.return_value s t = none) ∧
    (AccelerationFromTime.getitem (SamplerState.init accExSeg []) 0).1 = Except.ok none ∧
    (SamplerState.init accExSeg []).current_seg.get_accelerations = (2, 2, 0) := by
  refine ⟨fun _ _ => rfl, ?_, rfl⟩
  norm_num [AccelerationFromTime.getitem, cursorStep, SamplerState.init, advanceSegs,
    AccelerationFromTime.return_value, accExSeg]

/-! ## C3: the speed invariant 0 ≤ entry ≤ max_entry ≤ nominal -/

/-- The pass-1-to-3 invariant on one segment. -/
def SpeedInv (s : PathSegment) : Prop :=
  0 ≤ s.entry_speed ∧ s.entry_speed ≤ s.max_entry_speed ∧
    s.max_entry_speed ≤ s.nominal_speed

lemma buildFrom_shape : ∀ (gs : List GLine) (st : BuildState),
    (∀ g ∈ gs, ∀ v, g.f = some v → 0 ≤ v) → 0 ≤ st.nominal_speed →
    ∀ seg ∈ buildFrom st gs,
      0 ≤ seg.nominal_speed ∧ seg.entry_speed = 0 ∧ seg.max_entry_speed = 0 ∧
        seg.distance = 0
  | [], _, _, _ => by simp [buildFrom]
  | g :: gs, st, hf, hst => by
      intro seg hseg
      have hnom : 0 ≤ (stepBuild st g).1.nominal_speed := by
        unfold stepBuild
        cases hg : g.f with
        | none => simpa [hg] using hst
        | some v =>
            simp only [hg]
            exact div_nonneg (hf g (List.mem_cons_self g gs) v hg) (by norm_num)
      simp only [buildFrom, List.mem_cons] at hseg
      rcases hseg with rfl | hseg
      · exact ⟨hnom, rfl, rfl, rfl⟩
      · exact buildFrom_shape gs (stepBuild st g).1
          (fun g' hg' => hf g' (List.mem_cons_of_mem _ hg')) hnom seg hseg

lemma max_junction_speed_nonneg (cfg : Config) (prev seg : PathSegment) :
    ∀ v, max_junction_speed cfg prev seg = some v → 0 ≤ v := by
  intro v h
  unfold max_junction_speed at h
  split_ifs at h
  · obtain rfl := Option.some.inj h
    exact sq_nonneg _
  · simp only [Option.some.injEq] at h
    subst h
    exact le_trans (Real.sqrt_nonneg _) (le_max_right _ _)

lemma min_with_junction_nonneg (a b : ℝ) (j : Option ℝ) (ha : 0 ≤ a) (hb : 0 ≤ b)
    (hj : ∀ v, j = some v → 0 ≤ v) : 0 ≤ min_with_junction a b j := by
  cases j with
  | none => exact le_min ha hb
  | some v => exact le_min ha (le_min hb (hj v rfl))

lemma min_with_junction_le_left (a b : ℝ) (j : Option ℝ) : min_with_junction a b j ≤ a := by
  cases j <;> exact min_le_left _ _

lemma pass1Seg_inv (cfg : Config) (prev seg : PathSegment)
    (hn : 0 ≤ seg.nominal_speed) (hp : 0 ≤ prev.nominal_speed) :
    SpeedInv (pass1Seg cfg prev seg) := by
  by_cases hd : seg_distance prev seg = 0
  · rw [pass1Seg_of_eq cfg prev seg hd]
    exact ⟨le_refl 0, le_refl 0, hn⟩
  · rw [pass1Seg_of_ne cfg prev seg hd]
    have h0 : 0 ≤ min_with_junction seg.nominal_speed prev.nominal_speed
        (max_junction_speed cfg prev seg) :=
      min_with_junction_nonneg _ _ _ hn hp (max_junction_speed_nonneg cfg prev seg)
    exact ⟨h0, le_refl _, min_with_junction_le_left _ _ _⟩

lemma pass1Go_inv (cfg : Config) : ∀ (l : List PathSegment) (prev : PathSegment),
    (∀ s ∈ l, 0 ≤ s.nominal_speed) → 0 ≤ prev.nominal_speed →
    ∀ s ∈ pass1Go cfg prev l, SpeedInv s
  | [], _, _, _ => by simp [pass1Go]
  | seg :: rest, prev, hl, hprev => by
      intro s hs
      simp only [pass1Go, List.mem_cons] at hs
      have hn : 0 ≤ seg.nominal_speed := hl seg (List.mem_cons_self _ _)
      rcases hs with rfl | hs
      · exact pass1Seg_inv cfg prev seg hn hprev
      · exact pass1Go_inv cfg rest (pass1Seg cfg prev seg)
          (fun t ht => hl t (List.mem_cons_of_mem _ ht))
          (by rw [pass1Seg_nominal]; exact hn) s hs

lemma calculate_pass1_inv (cfg : Config) (l : List PathSegment)
    (hshape : ∀ s ∈ l, 0 ≤ s.nominal_speed ∧ s.entry_speed = 0 ∧ s.max_entry_speed = 0) :
    ∀ s ∈ calculate_pass1 cfg l, SpeedInv s := by
  cases l with
  | nil => simp [calculate_pass1]
  | cons first rest =>
      intro s hs
      simp only [calculate_pass1, List.mem_cons] at hs
      rcases hs with rfl | hs
      · obtain ⟨h1, h2, h3⟩ := hshape s (List.mem_cons_self _ _)
        exact ⟨h2.ge, by simp [h2, h3], by rw [h3]; exact h1⟩
      · exact pass1Go_inv cfg rest first
          (fun t ht => (hshape t (List.mem_cons_of_mem _ ht)).1)
          (hshape first (List.mem_cons_self _ _)).1 s hs

lemma pass2Seg_inv (cfg : Config) (seg next_seg : PathSegment)
    (hs : 0 ≤ seg.entry_speed) (hn : SpeedInv next_seg) :
    SpeedInv (pass2Seg cfg seg next_seg) := by
  obtain ⟨h1, h2, h3⟩ := hn
  exact ⟨le_min (h1.trans h2) (add_nonneg hs (Real.sqrt_nonneg _)), min_le_left _ _, h3⟩

lemma pass2Go_inv (cfg : Config) : ∀ (l : List PathSegment) (seg : PathSegment),
    0 ≤ seg.entry_speed → (∀ s ∈ l, SpeedInv s) →
    ∀ s ∈ pass2Go cfg seg l, SpeedInv s
  | [], _, _, _ => by simp [pass2Go]
  | next_seg :: rest, seg, hseg, hl => by
      intro s hs
      simp only [pass2Go, List.mem_cons] at hs
      have hinv : SpeedInv (pass2Seg cfg seg next_seg) :=
        pass2Seg_inv cfg seg next_seg hseg (hl _ (List.mem_cons_self _ _))
      rcases hs with rfl | hs
      · exact hinv
      · exact pass2Go_inv cfg rest (pass2Seg cfg seg next_seg) hinv.1
          (fun t ht => hl t (List.mem_cons_of_mem _ ht)) s hs

lemma calculate_pass2_inv (cfg : Config) (l : List PathSegment)
    (hl : ∀ s ∈ l, SpeedInv s) : ∀ s ∈ calculate_pass2 cfg l, SpeedInv s := by
  cases l with
  | nil => simp [calculate_pass2]
  | cons first rest =>
      intro s hs
      simp only [calculate_pass2, List.mem_cons] at hs
      rcases hs with rfl | hs
      · exact hl s (List.mem_cons_self _ _)
      · exact pass2Go_inv cfg rest first (hl first (List.mem_cons_self _ _)).1
          (fun t ht => hl t (List.mem_cons_of_mem _ ht)) s hs

lemma pass3Seg_inv (cfg : Config) (seg next_seg : PathSegment)
    (h : SpeedInv seg) (hnext : 0 ≤ next_seg.entry_speed) :
    SpeedInv (pass3Seg cfg seg next_seg) := by
  rw [pass3Seg_eq_ite]
  split_ifs with hlt
  · exact ⟨add_nonneg hnext (Real.sqrt_nonneg _), le_refl _,
      le_trans hlt.le (h.2.1.trans h.2.2)⟩
  · exact h

lemma pass3Aux_inv (cfg : Config) : ∀ (l : List PathSegment),
    (∀ s ∈ l, SpeedInv s) → ∀ s ∈ pass3Aux cfg l, SpeedInv s
  | [], _ => by simp [pass3Aux]
  | seg :: rest, hl => by
      intro s hs
      have hrest : ∀ t ∈ pass3Aux cfg rest, SpeedInv t :=
        pass3Aux_inv cfg rest (fun t ht => hl t (List.mem_cons_of_mem _ ht))
      simp only [pass3Aux, List.mem_cons] at hs
      rcases hs with rfl | hs
      · refine pass3Seg_inv cfg seg _ (hl seg (List.mem_cons_self _ _)) ?_
        cases hmatch : pass3Aux cfg rest with
        | nil => exact le_refl 0
        | cons n tl =>
            exact (hrest n (by rw [hmatch]; exact List.mem_cons_self n tl)).1
      · exact hrest s hs

lemma calculate_pass3_inv (cfg : Config) (l : List PathSegment)
    (hl : ∀ s ∈ l, SpeedInv s) : ∀ s ∈ calculate_pass3 cfg l, SpeedInv s := by
  cases l with
  | nil => simp [calculate_pass3]
  | cons first rest =>
      intro s hs
      simp only [calculate_pass3, List.mem_cons] at hs
      rcases hs with rfl | hs
      · exact hl s (List.mem_cons_self _ _)
      · exact pass3Aux_inv cfg rest (fun t ht => hl t (List.mem_cons_of_mem _ ht)) s hs

/-- C3: after the three speed-solving passes, every segment satisfies
`0 ≤ entry_speed ≤ max_entry_speed ≤ nominal_speed`, given nonnegative
feed-rate values and positive configuration constants. -/
theorem C3_speed_invariant (cfg : Config) (records : List GLine)
    (hfeed : ∀ g ∈ records, ∀ v, g.f = some v → 0 ≤ v)
    (hmin : 0 < cfg.MIN_SPEED) (hacc : 0 < cfg.ACCELERATION)
    (hjd : 0 < cfg.JUNCTION_DEVIATION) :
    ∀ seg ∈ solved_segments cfg records,
      0 ≤ seg.entry_speed ∧ seg.entry_speed ≤ seg.max_entry_speed ∧
        seg.max_entry_speed ≤ seg.nominal_speed := by
  have hbuilt := buildFrom_shape records ⟨0, 0, 0⟩ hfeed (le_refl 0)
  have h1 := calculate_pass1_inv cfg (create_path_segments records)
    (fun s hs => ⟨(hbuilt s hs).1, (hbuilt s hs).2.1, (hbuilt s hs).2.2.1⟩)
  have h2 := calculate_pass2_inv cfg _ h1
  have h3 := calculate_pass3_inv cfg _ h2
  exact fun seg hs => h3 seg hs

theorem C3_speed_invariant_witness :
    0 ≤ (PathSegment.mk0 1 0 (60 / 60)).entry_speed ∧
    (PathSegment.mk0 1 0 (60 / 60)).entry_speed ≤
      (PathSegment.mk0 1 0 (60 / 60)).max_entry_speed ∧
    (PathSegment.mk0 1 0 (60 / 60)).max_entry_speed ≤
      (PathSegment.mk0 1 0 (60 / 60)).nominal_speed :=
  C3_speed_invariant cfgEx [⟨some 60, some 1, none⟩]
    (by
      intro g hg v hv
      simp only [List.mem_singleton] at hg
      subst hg
      obtain rfl := Option.some.inj hv
      norm_num)
    (by show (0 : ℝ) < 1; norm_num)
    (by show (0 : ℝ) < 2; norm_num)
    (by show (0 : ℝ) < 1; norm_num)
    (PathSegment.mk0 1 0 (60 / 60))
    (show PathSegment.mk0 1 0 (60 / 60) ∈ [PathSegment.mk0 1 0 (60 / 60)] from
      List.mem_cons_self _ _)

/-! ## C10: motion always begins from rest -/

lemma pass3Aux_length (cfg : Config) : ∀ l : List PathSegment,
    (pass3Aux cfg l).length = l.length
  | [] => rfl
  | _ :: rest => by simp [pass3Aux, pass3Aux_length cfg rest]

lemma pass2Go_distance (cfg : Config) : ∀ (l : List PathSegment) (seg : PathSegment) (j : ℕ),
    ((pass2Go cfg seg l)[j]?).map PathSegment.distance = (l[j]?).map PathSegment.distance
  | [], _, _ => by simp [pass2Go]
  | next_seg :: rest, seg, 0 => by simp [pass2Go, pass2Seg]
  | next_seg :: rest, seg, j + 1 => by
      simp only [pass2Go, List.getElem?_cons_succ]
      exact pass2Go_distance cfg rest (pass2Seg cfg seg next_seg) j

lemma pass3Seg_distance (cfg : Config) (seg next_seg : PathSegment) :
    (pass3Seg cfg seg next_seg).distance = seg.distance := by
  rw [pass3Seg_eq_ite]
  split_ifs <;> rfl

lemma pass3Aux_distance (cfg : Config) : ∀ (l : List PathSegment) (j : ℕ),
    ((pass3Aux cfg l)[j]?).map PathSegment.distance = (l[j]?).map PathSegment.distance
  | [], _ => by simp [pass3Aux]
  | seg :: rest, 0 => by simp [pass3Aux, pass3Seg_distance]
  | seg :: rest, j + 1 => by
      simp only [pass3Aux, List.getElem?_cons_succ]
      exact pass3Aux_distance cfg rest j

lemma map_distance_eq {o1 o2 : Option PathSegment}
    (h : o1.map PathSegment.distance = o2.map PathSegment.distance)
    {a : PathSegment} (ha : o1 = some a) :
    ∃ b, o2 = some b ∧ b.distance = a.distance := by
  subst ha
  cases o2 with
  | none => simp at h
  | some b => exact ⟨b, rfl, by simpa using h.symm⟩

lemma pass1Go_distance_nonneg (cfg : Config) : ∀ (l : List PathSegment) (prev : PathSegment),
    ∀ s ∈ pass1Go cfg prev l, 0 ≤ s.distance
  | [], _ => by simp [pass1Go]
  | seg :: rest, prev => by
      intro s hs
      simp only [pass1Go, List.mem_cons] at hs
      rcases hs with rfl | hs
      · exact pass1Seg_distance_nonneg cfg prev seg
      · exact pass1Go_distance_nonneg cfg rest (pass1Seg cfg prev seg) s hs

lemma pass2Go_zero_entry (cfg : Config) : ∀ (l : List PathSegment) (seg : PathSegment)
    (i : ℕ) (oi : PathSegment),
    seg.entry_speed = 0 → seg.distance = 0 →
    (∀ s ∈ l, 0 ≤ s.max_entry_speed) →
    (∀ j sj, j < i → l[j]? = some sj → sj.distance = 0) →
    (pass2Go cfg seg l)[i]? = some oi → oi.entry_speed = 0
  | [], _, _, _ => by simp [pass2Go]
  | n0 :: rest, seg, 0, oi => by
      intro he hd hmax _ hout
      simp only [pass2Go, List.getElem?_cons_zero, Option.some.injEq] at hout
      have hz : (0 : ℝ) + Real.sqrt (2 * cfg.ACCELERATION * 0) = 0 := by
        rw [mul_zero, Real.sqrt_zero, add_zero]
      rw [← hout, pass2Seg_entry, he, hd, hz,
        min_eq_right (hmax n0 (List.mem_cons_self _ _))]
  | n0 :: rest, seg, i + 1, oi => by
      intro he hd hmax hpre hout
      simp only [pass2Go, List.getElem?_cons_succ] at hout
      have hd0 : n0.distance = 0 := hpre 0 n0 (Nat.succ_pos i) (by simp)
      have hz : (0 : ℝ) + Real.sqrt (2 * cfg.ACCELERATION * 0) = 0 := by
        rw [mul_zero, Real.sqrt_zero, add_zero]
      have hentry0 : (pass2Seg cfg seg n0).entry_speed = 0 := by
        rw [pass2Seg_entry, he, hd, hz, min_eq_right (hmax n0 (List.mem_cons_self _ _))]
      exact pass2Go_zero_entry cfg rest (pass2Seg cfg seg n0) i oi hentry0 hd0
        (fun t ht => hmax t (List.mem_cons_of_mem _ ht))
        (fun j sj hj hjs => hpre (j + 1) sj (by omega) (by simpa using hjs))
        hout

/-- C10: after the full speed-solving pipeline, the segment built from the
first record has zero distance and zero entry speed, and the first segment
with positive distance has entry speed 0 — motion always begins from rest
(assuming nonnegative feed-rate values). -/
theorem C10_starts_from_rest (cfg : Config) (records : List GLine)
    (hfeed : ∀ g ∈ records, ∀ v, g.f = some v → 0 ≤ v) :
    (∀ s0 : PathSegment, (solved_segments cfg records)[0]? = some s0 →
      s0.distance = 0 ∧ s0.entry_speed = 0) ∧
    (∀ (i : ℕ) (si : PathSegment), (solved_segments cfg records)[i]? = some si →
      0 < si.distance →
      (∀ (j : ℕ) (sj : PathSegment), j < i →
        (solved_segments cfg records)[j]? = some sj → ¬ 0 < sj.distance) →
      si.entry_speed = 0) := by
  cases records with
  | nil => simp [solved_segments, calculate_path_segments, create_path_segments,
      buildFrom, calculate_pass1, calculate_pass2, calculate_pass3]
  | cons g gs =>
    have hb0e : ((stepBuild ⟨0, 0, 0⟩ g).2).entry_speed = 0 := rfl
    have hb0d : ((stepBuild ⟨0, 0, 0⟩ g).2).distance = 0 := rfl
    have hsolved : solved_segments cfg (g :: gs) =
        (stepBuild ⟨0, 0, 0⟩ g).2 ::
          pass3Aux cfg (pass2Go cfg (stepBuild ⟨0, 0, 0⟩ g).2
            (pass1Go cfg (stepBuild ⟨0, 0, 0⟩ g).2 (buildFrom (stepBuild ⟨0, 0, 0⟩ g).1 gs))) :=
      rfl
    set b0 := (stepBuild ⟨0, 0, 0⟩ g).2 with hb0def
    set r1 := pass1Go cfg b0 (buildFrom (stepBuild ⟨0, 0, 0⟩ g).1 gs) with hr1def
    set r2 := pass2Go cfg b0 r1 with hr2def
    -- invariants after pass 1 and pass 2
    have hbuilt := buildFrom_shape (g :: gs) ⟨0, 0, 0⟩ hfeed (le_refl 0)
    have hinv1 : ∀ s ∈ calculate_pass1 cfg (create_path_segments (g :: gs)), SpeedInv s :=
      calculate_pass1_inv cfg _
        (fun s hs => ⟨(hbuilt s hs).1, (hbuilt s hs).2.1, (hbuilt s hs).2.2.1⟩)
    have hl1 : calculate_pass1 cfg (create_path_segments (g :: gs)) = b0 :: r1 := rfl
    have hinv1' : ∀ s ∈ r1, SpeedInv s := by
      intro s hs
      exact hinv1 s (by rw [hl1]; exact List.mem_cons_of_mem _ hs)
    have hinv2 : ∀ s ∈ calculate_pass2 cfg (b0 :: r1), SpeedInv s :=
      calculate_pass2_inv cfg _ (by rw [← hl1]; exact hinv1)
    have hinv2' : ∀ s ∈ r2, SpeedInv s := by
      intro s hs
      exact hinv2 s (List.mem_cons_of_mem _ hs)
    constructor
    · intro s0 hs0
      rw [hsolved] at hs0
      simp only [List.getElem?_cons_zero, Option.some.injEq] at hs0
      rw [← hs0]
      exact ⟨hb0d, hb0e⟩
    · intro i si hsi hpos hpre
      cases i with
      | zero =>
          rw [hsolved] at hsi
          simp only [List.getElem?_cons_zero, Option.some.injEq] at hsi
          rw [← hsi] at hpos
          rw [hb0d] at hpos
          exact absurd hpos (lt_irrefl 0)
      | succ k =>
          rw [hsolved] at hsi
          simp only [List.getElem?_cons_succ] at hsi
          -- the pass-2 state at index k exists
          obtain ⟨oi, hoi⟩ : ∃ oi, r2[k]? = some oi := by
            cases hr : r2[k]? with
            | some oi => exact ⟨oi, rfl⟩
            | none =>
                have hlen : r2.length ≤ k := List.getElem?_eq_none_iff.mp hr
                have : (pass3Aux cfg r2)[k]? = none :=
                  List.getElem?_eq_none (by rw [pass3Aux_length]; exact hlen)
                rw [this] at hsi
                exact absurd hsi (by simp)
          -- the entry speed at index k of the pass-2 output is 0
          have hoi_entry : oi.entry_speed = 0 := by
            refine pass2Go_zero_entry cfg r1 b0 k oi hb0e hb0d
              (fun s hs => ((hinv1' s hs).2.1).trans' (hinv1' s hs).1) ?_ (by rw [← hr2def]; exact hoi)
            intro j sj hj hjs
            -- transport the prefix hypothesis from the solved list back to r1
            obtain ⟨sj2, hsj2, hd2⟩ :=
              map_distance_eq (pass2Go_distance cfg r1 b0 j).symm hjs
            obtain ⟨sj3, hsj3, hd3⟩ :=
              map_distance_eq (pass3Aux_distance cfg r2 j).symm (by rw [← hr2def] at hsj2; exact hsj2)
            have hnotpos : ¬ 0 < sj3.distance := by
              refine hpre (j + 1) sj3 (by omega) ?_
              rw [hsolved]
              simpa using hsj3
            have hnn : 0 ≤ sj.distance :=
              pass1Go_distance_nonneg cfg _ b0 sj (by exact List.getElem?_mem hjs)
            have : sj3.distance = sj.distance := by rw [hd3, hd2]
            rw [this] at hnotpos
            exact le_antisymm (not_lt.mp hnotpos) hnn
          -- pass 3 leaves a zero entry speed unchanged
          have hchar := pass3Aux_get cfg r2 k oi hoi
          rw [hchar] at hsi
          simp only [Option.some.injEq] at hsi
          have hnext : 0 ≤ (((pass3Aux cfg r2)[k + 1]?).getD virtual_segment).entry_speed := by
            cases hn : (pass3Aux cfg r2)[k + 1]? with
            | none => exact le_refl 0
            | some n =>
                have hmem : n ∈ pass3Aux cfg r2 := List.getElem?_mem hn
                exact (pass3Aux_inv cfg r2 hinv2' n hmem).1
          have hcond : ¬ ((((pass3Aux cfg r2)[k + 1]?).getD virtual_segment).entry_speed +
              Real.sqrt (2 * cfg.ACCELERATION * oi.distance) < oi.entry_speed) := by
            rw [hoi_entry]
            exact not_lt.mpr (add_nonneg hnext (Real.sqrt_nonneg _))
          rw [← hsi, pass3Seg_eq_ite, if_neg hcond, hoi_entry]

theorem C10_starts_from_rest_witness :
    (∀ s0 : PathSegment, (solved_segments cfgEx [(⟨none, none, none⟩ : GLine)])[0]? = some s0 →
      s0.distance = 0 ∧ s0.entry_speed = 0) ∧
    (∀ (i : ℕ) (si : PathSegment),
      (solved_segments cfgEx [(⟨none, none, none⟩ : GLine)])[i]? = some si →
      0 < si.distance →
      (∀ (j : ℕ) (sj : PathSegment), j < i →
        (solved_segments cfgEx [(⟨none, none, none⟩ : GLine)])[j]? = some sj →
        ¬ 0 < sj.distance) →
      si.entry_speed = 0) :=
  C10_starts_from_rest cfgEx [⟨none, none, none⟩] (by simp)

/-! ## C5: division-by-zero reachability -/

lemma pass1Seg_distance (cfg : Config) (prev seg : PathSegment) :
    (pass1Seg cfg prev seg).distance = seg_distance prev seg := by
  simp only [pass1Seg]
  split <;> rfl

lemma pass3Seg_nominal (cfg : Config) (seg next_seg : PathSegment) :
    (pass3Seg cfg seg next_seg).nominal_speed = seg.nominal_speed := by
  rw [pass3Seg_eq_ite]
  split_ifs <;> rfl

lemma create_divisors_ne : ∀ gs : List GLine, (0 : ℝ) ∉ create_divisors gs
  | [] => by simp [create_divisors]
  | g :: gs => by
      intro hmem
      simp only [create_divisors] at hmem
      rcases List.mem_append.mp hmem with h | h
      · revert h
        cases hg : g.f with
        | none => simp [gline_divisors, hg]
        | some v => norm_num [gline_divisors, hg]
      · exact create_divisors_ne gs h

lemma pass1Seg_divisors_ne (cfg : Config) (prev seg : PathSegment) :
    (0 : ℝ) ∉ pass1Seg_divisors cfg prev seg := by
  intro hmem
  unfold pass1Seg_divisors at hmem
  by_cases hd : seg_distance prev seg ≠ 0
  · rw [if_pos hd] at hmem
    rcases List.mem_append.mp hmem with h | h
    · simp only [List.mem_cons, List.not_mem_nil, or_false] at h
      rcases h with h | h <;> exact hd h.symm
    · revert h
      split_ifs with h1 h2
      · simp
      · simp
      · intro h
        simp only [List.mem_singleton] at h
        push_neg at h1 h2
        have hlt : Real.sqrt (0.5 * (1.0 - junction_cos_theta prev seg)) < 1 := by
          rw [Real.sqrt_lt' one_pos]
          nlinarith
        linarith [h.symm]
  · rw [if_neg hd] at hmem
    simp at hmem

lemma pass1Go_divisors_ne (cfg : Config) : ∀ (l : List PathSegment) (prev : PathSegment),
    (0 : ℝ) ∉ pass1Go_divisors cfg prev l
  | [], _ => by simp [pass1Go_divisors]
  | seg :: rest, prev => by
      intro hmem
      simp only [pass1Go_divisors] at hmem
      rcases List.mem_append.mp hmem with h | h
      · exact pass1Seg_divisors_ne cfg prev seg h
      · exact pass1Go_divisors_ne cfg rest (pass1Seg cfg prev seg) h

lemma calculate_pass1_divisors_ne (cfg : Config) (l : List PathSegment) :
    (0 : ℝ) ∉ calculate_pass1_divisors cfg l := by
  cases l with
  | nil => simp [calculate_pass1_divisors]
  | cons first rest => exact pass1Go_divisors_ne cfg rest first

lemma profileSegment_divisors_ne (cfg : Config) (path_seg next_path_seg : PathSegment)
    (hA : cfg.ACCELERATION ≠ 0) (hn : path_seg.nominal_speed ≠ 0) :
    (0 : ℝ) ∉ profileSegment_divisors cfg path_seg next_path_seg := by
  intro hmem
  unfold profileSegment_divisors at hmem
  by_cases hd : path_seg.distance = 0
  · rw [if_pos hd] at hmem
    simp at hmem
  · rw [if_neg hd] at hmem
    rcases List.mem_append.mp hmem with h | h
    · simp only [List.mem_cons, List.not_mem_nil, or_false] at h
      rcases h with h | h | h
      · exact hA h.symm
      · exact hA h.symm
      · exact hd h.symm
    · revert h
      split_ifs with hp
      · intro h
        simp only [List.mem_cons, List.not_mem_nil, or_false] at h
        rcases h with h | h
        · exact hn h.symm
        · exact hd h.symm
      · simp

/-- Nominal speeds are untouched by all three passes (membership form). -/
lemma pass1Go_nominal_pos (cfg : Config) : ∀ (l : List PathSegment) (prev : PathSegment),
    (∀ s ∈ l, 0 < s.nominal_speed) → ∀ s ∈ pass1Go cfg prev l, 0 < s.nominal_speed
  | [], _, _ => by simp [pass1Go]
  | seg :: rest, prev, hl => by
      intro s hs
      simp only [pass1Go, List.mem_cons] at hs
      rcases hs with rfl | hs
      · rw [pass1Seg_nominal]
        exact hl seg (List.mem_cons_self _ _)
      · exact pass1Go_nominal_pos cfg rest (pass1Seg cfg prev seg)
          (fun t ht => hl t (List.mem_cons_of_mem _ ht)) s hs

lemma pass2Go_nominal_pos (cfg : Config) : ∀ (l : List PathSegment) (seg : PathSegment),
    (∀ s ∈ l, 0 < s.nominal_speed) → ∀ s ∈ pass2Go cfg seg l, 0 < s.nominal_speed
  | [], _, _ => by simp [pass2Go]
  | next_seg :: rest, seg, hl => by
      intro s hs
      simp only [pass2Go, List.mem_cons] at hs
      rcases hs with rfl | hs
      · exact hl next_seg (List.mem_cons_self _ _)
      · exact pass2Go_nominal_pos cfg rest (pass2Seg cfg seg next_seg)
          (fun t ht => hl t (List.mem_cons_of_mem _ ht)) s hs

lemma pass3Aux_nominal_pos (cfg : Config) : ∀ l : List PathSegment,
    (∀ s ∈ l, 0 < s.nominal_speed) → ∀ s ∈ pass3Aux cfg l, 0 < s.nominal_speed
  | [], _ => by simp [pass3Aux]
  | seg :: rest, hl => by
      intro s hs
      simp only [pass3Aux, List.mem_cons] at hs
      rcases hs with rfl | hs
      · rw [pass3Seg_nominal]
        exact hl seg (List.mem_cons_self _ _)
      · exact pass3Aux_nominal_pos cfg rest
          (fun t ht => hl t (List.mem_cons_of_mem _ ht)) s hs

lemma solved_nominal_pos (cfg : Config) (records : List GLine)
    (h : ∀ s ∈ create_path_segments records, 0 < s.nominal_speed) :
    ∀ s ∈ solved_segments cfg records, 0 < s.nominal_speed := by
  have h1 : ∀ s ∈ calculate_pass1 cfg (create_path_segments records), 0 < s.nominal_speed := by
    cases hc : create_path_segments records with
    | nil => simp [calculate_pass1]
    | cons first rest =>
        intro s hs
        simp only [calculate_pass1, List.mem_cons] at hs
        rcases hs with rfl | hs
        · exact h s (by rw [hc]; exact List.mem_cons_self _ _)
        · exact pass1Go_nominal_pos cfg rest first
            (fun t ht => h t (by rw [hc]; exact List.mem_cons_of_mem _ ht)) s hs
  have h2 : ∀ s ∈ calculate_pass2 cfg (calculate_pass1 cfg (create_path_segments records)),
      0 < s.nominal_speed := by
    cases hc : calculate_pass1 cfg (create_path_segments records) with
    | nil => simp [calculate_pass2]
    | cons first rest =>
        intro s hs
        simp only [calculate_pass2, List.mem_cons] at hs
        rcases hs with rfl | hs
        · exact h1 s (by rw [hc]; exact List.mem_cons_self _ _)
        · exact pass2Go_nominal_pos cfg rest first
            (fun t ht => h1 t (by rw [hc]; exact List.mem_cons_of_mem _ ht)) s hs
  intro s hs
  unfold solved_segments calculate_path_segments at hs
  revert hs
  cases hc : calculate_pass2 cfg (calculate_pass1 cfg (create_path_segments records)) with
  | nil => simp [calculate_pass3]
  | cons first rest =>
      intro hs
      simp only [calculate_pass3, List.mem_cons] at hs
      rcases hs with rfl | hs
      · exact h2 s (by rw [hc]; exact List.mem_cons_self _ _)
      · exact pass3Aux_nominal_pos cfg rest
          (fun t ht => h2 t (by rw [hc]; exact List.mem_cons_of_mem _ ht)) s hs

lemma profiler_divisors_ne (cfg : Config) (hA : cfg.ACCELERATION ≠ 0) :
    ∀ l : List PathSegment, (∀ s ∈ l, 0 < s.nominal_speed) →
      (0 : ℝ) ∉ profiler_divisors cfg l
  | [], _ => by simp [profiler_divisors]
  | [path_seg], h =>
      profileSegment_divisors_ne cfg path_seg virtual_segment hA
        (h path_seg (List.mem_cons_self _ _)).ne'
  | path_seg :: next_path_seg :: rest, h => by
      intro hmem
      simp only [profiler_divisors] at hmem
      rcases List.mem_append.mp hmem with hm | hm
      · exact profileSegment_divisors_ne cfg path_seg next_path_seg hA
          (h path_seg (List.mem_cons_self _ _)).ne' hm
      · exact profiler_divisors_ne cfg hA (next_path_seg :: rest)
          (fun t ht => h t (List.mem_cons_of_mem _ ht)) hm

noncomputable def recsC5 : List GLine := [⟨none, none, none⟩, ⟨none, some 1, none⟩]

/-- C5 (counterexample): with the all-positive configuration (1, 2, 1) and the
well-formed records `[{}, {X: 1}]` — a movement commanded before any feed rate
is set, so the moving segment's nominal speed is 0 — the profiler takes the
plateau branch (`maximum_possible_speed = sqrt 2 > 0 = nominal_speed`) and
divides the plateau distance by `nominal_speed = 0` (line 214): 0 is among the
divisors the pipeline uses. -/
theorem C5_counterexample :
    0 < cfgEx.MIN_SPEED ∧ 0 < cfgEx.ACCELERATION ∧ 0 < cfgEx.JUNCTION_DEVIATION ∧
    (0 : ℝ) ∈ pipeline_divisors cfgEx recsC5 := by
  refine ⟨by show (0 : ℝ) < 1; norm_num, by show (0 : ℝ) < 2; norm_num,
    by show (0 : ℝ) < 1; norm_num, ?_⟩
  have hd : seg_distance (PathSegment.mk0 0 0 0) (PathSegment.mk0 1 0 0) = 1 := by
    unfold seg_distance
    rw [show ((PathSegment.mk0 1 0 0).x - (PathSegment.mk0 0 0 0).x) ^ 2 +
        ((PathSegment.mk0 1 0 0).y - (PathSegment.mk0 0 0 0).y) ^ 2 = 1 by
      show ((1 : ℝ) - 0) ^ 2 + ((0 : ℝ) - 0) ^ 2 = 1
      norm_num]
    exact Real.sqrt_one
  set S := pass3Seg cfgEx
    (pass2Seg cfgEx (PathSegment.mk0 0 0 0)
      (pass1Seg cfgEx (PathSegment.mk0 0 0 0) (PathSegment.mk0 1 0 0)))
    virtual_segment with hS
  have hsolved : solved_segments cfgEx recsC5 = [PathSegment.mk0 0 0 0, S] := rfl
  have hSd : S.distance = 1 := by
    rw [hS, pass3Seg_distance]
    show (pass1Seg cfgEx (PathSegment.mk0 0 0 0) (PathSegment.mk0 1 0 0)).distance = 1
    rw [pass1Seg_distance]
    exact hd
  have hSn : S.nominal_speed = 0 := by
    rw [hS, pass3Seg_nominal]
    show (pass1Seg cfgEx (PathSegment.mk0 0 0 0) (PathSegment.mk0 1 0 0)).nominal_speed = 0
    rw [pass1Seg_nominal]
    rfl
  have hmaxp : maximum_possible_speed cfgEx S virtual_segment > S.nominal_speed := by
    rw [hSn]
    apply Real.sqrt_pos.mpr
    rw [hSd]
    show (0 : ℝ) < 2 * 1 + (S.entry_speed ^ 2 + (0 : ℝ) ^ 2) / 2
    positivity
  unfold pipeline_divisors
  refine List.mem_append_right _ ?_
  rw [hsolved]
  simp only [profiler_divisors]
  refine List.mem_append_right _ ?_
  unfold profileSegment_divisors
  rw [if_neg (by rw [hSd]; norm_num), if_pos hmaxp]
  simp [hSn]

/-- C5 (amended): for every instruction sequence and positive configuration,
provided additionally that every built segment's nominal speed is positive
(i.e. a positive feed rate is in effect from the first record on), the
planning computation performs no division by zero: 0 is never among the
divisors used by the segment build, the speed-solving passes and the
acceleration profiler. -/
theorem C5_no_div_by_zero_amended (cfg : Config) (records : List GLine)
    (hmin : 0 < cfg.MIN_SPEED) (hacc : 0 < cfg.ACCELERATION)
    (hjd : 0 < cfg.JUNCTION_DEVIATION)
    (hnom : ∀ seg ∈ create_path_segments records, 0 < seg.nominal_speed) :
    (0 : ℝ) ∉ pipeline_divisors cfg records := by
  intro hmem
  unfold pipeline_divisors at hmem
  rcases List.mem_append.mp hmem with h | h
  · rcases List.mem_append.mp h with h' | h'
    · exact create_divisors_ne records h'
    · exact calculate_pass1_divisors_ne cfg _ h'
  · exact profiler_divisors_ne cfg hacc.ne' _ (solved_nominal_pos cfg records hnom) h

theorem C5_no_div_by_zero_amended_witness :
    (0 : ℝ) ∉ pipeline_divisors cfgEx [(⟨some 60, some 1, none⟩ : GLine)] :=
  C5_no_div_by_zero_amended cfgEx [⟨some 60, some 1, none⟩]
    (by show (0 : ℝ) < 1; norm_num) (by show (0 : ℝ) < 2; norm_num)
    (by show (0 : ℝ) < 1; norm_num)
    (by
      intro seg hs
      simp only [create_path_segments, buildFrom, List.mem_singleton] at hs
      subst hs
      show (0 : ℝ) < 60 / 60
      norm_num)

/-! ## C6: sampler error conditions -/

lemma advanceSegs_false_iff (time : ℝ) : ∀ (rem : List AccelerationSegment)
    (cur : AccelerationSegment) (startT endT : ℝ),
    (∀ a ∈ rem, 0 ≤ a.duration) →
    ((advanceSegs time cur startT endT rem).1 = false ↔
      endT + (rem.map AccelerationSegment.duration).sum < time)
  | [], cur, startT, endT => by
      intro _
      simp only [advanceSegs, List.map_nil, List.sum_nil, add_zero]
      split_ifs with h
      · simpa using h
      · simpa using h
  | nxt :: rest, cur, startT, endT => by
      intro hdur
      simp only [advanceSegs, List.map_cons, List.sum_cons]
      split_ifs with h
      · rw [advanceSegs_false_iff time rest nxt endT (endT + nxt.duration)
          (fun a ha => hdur a (List.mem_cons_of_mem _ ha)), add_assoc]
      · push_neg at h
        have h0 : 0 ≤ nxt.duration := hdur nxt (List.mem_cons_self _ _)
        have hsum : 0 ≤ (rest.map AccelerationSegment.duration).sum :=
          List.sum_nonneg (fun x hx => by
            obtain ⟨a, ha, rfl⟩ := List.mem_map.mp hx
            exact hdur a (List.mem_cons_of_mem _ ha))
        refine iff_of_false (by simp) (by intro hc; linarith)

lemma cursorStep_nonMonotonic_iff (s : SamplerState) (t : ℝ) :
    ((cursorStep s t).1 = Except.error SampleErr.nonMonotonic ↔ t < s.current_time) ∧
    (t < s.current_time → (cursorStep s t).2 = s) := by
  unfold cursorStep
  split_ifs with h
  · exact ⟨iff_of_true rfl h, fun _ => rfl⟩
  · refine ⟨iff_of_false ?_ h, fun hc => absurd hc h⟩
    rcases hA : advanceSegs t s.current_seg s.current_seg_start_time s.current_seg_end_time
      s.remaining with ⟨b, cur, st2, en2, rem⟩
    cases b
    · simp [hA]
    · simp [hA]

lemma cursorStep_endOfRange_iff (s : SamplerState) (t : ℝ)
    (hdur : ∀ a ∈ s.remaining, 0 ≤ a.duration) (h : ¬ t < s.current_time) :
    ((cursorStep s t).1 = Except.error SampleErr.endOfRange ↔ s.endTime < t) := by
  unfold cursorStep
  rw [if_neg h]
  have hiff := advanceSegs_false_iff t s.remaining s.current_seg s.current_seg_start_time
    s.current_seg_end_time hdur
  rcases hA : advanceSegs t s.current_seg s.current_seg_start_time s.current_seg_end_time
    s.remaining with ⟨b, cur, st2, en2, rem⟩
  rw [hA] at hiff
  cases b
  · simp only [SamplerState.endTime]
    exact iff_of_true trivial (by simpa using hiff.mp rfl)
  · simp only [SamplerState.endTime]
    refine iff_of_false (by simp) ?_
    intro hc
    have := hiff.mpr hc
    simp at this

lemma posLoop_error_iff (coord_name : Axis) (time : ℝ) :
    ∀ (rem : List AccelerationSegment) (coordVal : ℝ) (cur : AccelerationSegment)
      (startT endT curTime : ℝ),
      (∀ a ∈ rem, 0 ≤ a.duration) →
      ∀ er, ((posLoop coord_name time coordVal cur startT endT curTime rem).1 =
        Except.error er ↔ (er = SampleErr.endOfRange ∧
          endT + (rem.map AccelerationSegment.duration).sum ≤ time))
  | [], coordVal, cur, startT, endT, curTime => by
      intro _ er
      simp only [posLoop, List.map_nil, List.sum_nil, add_zero]
      split_ifs with h
      · refine iff_of_false (by simp) ?_
        rintro ⟨-, hle⟩
        linarith
      · constructor
        · intro he
          exact ⟨(Except.error.inj he).symm, not_lt.mp h⟩
        · rintro ⟨rfl, -⟩
          rfl
  | nxt :: rest, coordVal, cur, startT, endT, curTime => by
      intro hdur er
      simp only [posLoop, List.map_cons, List.sum_cons]
      split_ifs with h
      · refine iff_of_false (by simp) ?_
        rintro ⟨-, hle⟩
        have h0 : 0 ≤ nxt.duration := hdur nxt (List.mem_cons_self _ _)
        have hsum : 0 ≤ (rest.map AccelerationSegment.duration).sum :=
          List.sum_nonneg (fun x hx => by
            obtain ⟨a, ha, rfl⟩ := List.mem_map.mp hx
            exact hdur a (List.mem_cons_of_mem _ ha))
        linarith
      · rw [posLoop_error_iff coord_name time rest _ nxt endT (endT + nxt.duration) _
          (fun a ha => hdur a (List.mem_cons_of_mem _ ha)) er, add_assoc]

lemma PositionFromTime_getitem_spec (p : PosState) (t : ℝ)
    (hdur : ∀ a ∈ p.remaining, 0 ≤ a.duration) :
    ((PositionFromTime.getitem p t).1 = Except.error SampleErr.nonMonotonic ↔
      t < p.current_time) ∧
    (t < p.current_time → (PositionFromTime.getitem p t).2 = p) ∧
    (¬ t < p.current_time →
      ((PositionFromTime.getitem p t).1 = Except.error SampleErr.endOfRange ↔
        p.endTime ≤ t)) := by
  unfold PositionFromTime.getitem
  split_ifs with h
  · exact ⟨iff_of_true rfl h, fun _ => rfl, fun hc => absurd h hc⟩
  · have hiff := posLoop_error_iff p.coord_name t p.remaining p.coord_value p.current_seg
      p.current_seg_start_time p.current_seg_end_time p.current_time hdur
    refine ⟨?_, fun hc => absurd hc h, fun _ => ?_⟩
    · rw [hiff SampleErr.nonMonotonic]
      simp [h]
    · rw [hiff SampleErr.endOfRange]
      simp [PosState.endTime]

noncomputable def posExSeg : AccelerationSegment :=
  { path_seg := virtual_segment
    x := 0
    y := 0
    acceleration := 0
    x_acceleration := 0
    y_acceleration := 0
    distance := 0
    duration := 1 }

noncomputable def posExState : PosState :=
  { coord_name := Axis.x
    coord_value := 0
    remaining := []
    current_seg := posExSeg
    current_seg_start_time := 0
    current_seg_end_time := 1
    current_time := 0 }

/-- C6 (counterexample): the position sampler raises the end-of-range error on
a query at exactly the end time of its last sub-segment — a time that does
not exceed it.  `PositionFromTime.__getitem__` enters a sub-segment only when
`time < current_seg_end_time` holds strictly (line 448), so with one
sub-segment of duration 1 the query `t = 1` advances past it and raises
`IndexError`, although `1 > 1` is false. -/
theorem C6_counterexample :
    (PositionFromTime.getitem posExState 1).1 = Except.error SampleErr.endOfRange ∧
    ¬ (posExState.endTime < 1) := by
  constructor
  · unfold PositionFromTime.getitem
    rw [if_neg (by show ¬ ((1 : ℝ) < 0); norm_num)]
    show (posLoop Axis.x 1 0 posExSeg 0 1 0 []).1 = _
    simp only [posLoop]
    rw [if_neg (by norm_num : ¬ ((1 : ℝ) < 1))]
  · show ¬ ((1 : ℝ) + (([] : List AccelerationSegment).map AccelerationSegment.duration).sum < 1)
    simp

/-- C6 (amended): for every sampler state with nonnegative sub-segment
durations: a query raises the monotonicity error (`ValueError`) iff `t` is
strictly below the cursor's last queried time, and then leaves the state
unchanged; otherwise the value samplers (`ValueFromTime.__getitem__`) raise
the end-of-range error (`IndexError`) iff `t` strictly exceeds the end time
of the last sub-segment in range, while the position sampler raises it iff
`t` is greater than **or equal to** that end time; the two errors are
distinct. -/
theorem C6_sampler_errors_amended (s : SamplerState) (p : PosState) (t : ℝ)
    (hs : ∀ a ∈ s.remaining, 0 ≤ a.duration) (hp : ∀ a ∈ p.remaining, 0 ≤ a.duration) :
    ((cursorStep s t).1 = Except.error SampleErr.nonMonotonic ↔ t < s.current_time) ∧
    (t < s.current_time → (cursorStep s t).2 = s) ∧
    (¬ t < s.current_time →
      ((cursorStep s t).1 = Except.error SampleErr.endOfRange ↔ s.endTime < t)) ∧
    ((PositionFromTime.getitem p t).1 = Except.error SampleErr.nonMonotonic ↔
      t < p.current_time) ∧
    (t < p.current_time → (PositionFromTime.getitem p t).2 = p) ∧
    (¬ t < p.current_time →
      ((PositionFromTime.getitem p t).1 = Except.error SampleErr.endOfRange ↔
        p.endTime ≤ t)) ∧
    SampleErr.nonMonotonic ≠ SampleErr.endOfRange := by
  obtain ⟨h1, h2⟩ := cursorStep_nonMonotonic_iff s t
  obtain ⟨h4, h5, h6⟩ := PositionFromTime_getitem_spec p t hp
  exact ⟨h1, h2, fun h => cursorStep_endOfRange_iff s t hs h, h4, h5, h6, by simp⟩

theorem C6_sampler_errors_amended_witness :
    ((cursorStep (SamplerState.init posExSeg []) 0.5).1 =
        Except.error SampleErr.nonMonotonic ↔
      (0.5 : ℝ) < (SamplerState.init posExSeg []).current_time) ∧
    ((0.5 : ℝ) < (SamplerState.init posExSeg []).current_time →
      (cursorStep (SamplerState.init posExSeg []) 0.5).2 = SamplerState.init posExSeg []) ∧
    (¬ (0.5 : ℝ) < (SamplerState.init posExSeg []).current_time →
      ((cursorStep (SamplerState.init posExSeg []) 0.5).1 =
          Except.error SampleErr.endOfRange ↔
        (SamplerState.init posExSeg []).endTime < 0.5)) ∧
    ((PositionFromTime.getitem posExState 0.5).1 = Except.error SampleErr.nonMonotonic ↔
      (0.5 : ℝ) < posExState.current_time) ∧
    ((0.5 : ℝ) < posExState.current_time →
      (PositionFromTime.getitem posExState 0.5).2 = posExState) ∧
    (¬ (0.5 : ℝ) < posExState.current_time →
      ((PositionFromTime.getitem posExState 0.5).1 = Except.error SampleErr.endOfRange ↔
        posExState.endTime ≤ 0.5)) ∧
    SampleErr.nonMonotonic ≠ SampleErr.endOfRange :=
  C6_sampler_errors_amended (SamplerState.init posExSeg []) posExState 0.5
    (by simp [SamplerState.init]) (by simp [posExState])
